import Mathlib

/-!
# Todo API: model of `models/Todo.js` and `routes/todos.js`

A shallow embedding of the Todo model (schema, virtuals, the statics
`findByUser` and `getUserStats`) and of the handlers of the todos router,
followed by the properties proved about them.

Conventions of the embedding:

* a collection is the list of its documents, in storage order;
* an `ObjectId` is kept in its string form, a date is the number of
  milliseconds since the epoch;
* a string is a sequence of Unicode characters; its JavaScript `length`
  (UTF-16 code units) is `utf16Length`, and the length that the validator
  `isLength` measures is `validatorLength`;
* a JavaScript number that holds a count is a natural number; a number
  produced by `/` or `*` is the exact rational value of the IEEE 754 double
  the operation returns (`roundDouble`);
* Mongoose keeps to the schema: a value assigned under a name that is no
  path of the schema is neither stored nor serialized, a query filter is cast
  through the setters of its path, and `save()` rewrites `updatedAt`;
* what lives outside the repository and decides a result is a parameter:
  the regular-expression engine of the database (`regexI`), the cast of a
  route parameter to an `ObjectId` (`castId`), the parser behind
  `new Date(value)` (`parseDate`).
-/

namespace TodoApp

/-! ## Data model -/

abbrev ObjectId := String

/-- Milliseconds since the epoch. -/
abbrev Timestamp := Int

/-- A document of the `Todo` collection, as stored and as serialized: the
paths of `todoSchema` that the handlers and statics below read or write, with
`createdAt` and `updatedAt` from `timestamps: true`. `none` is `null`. The
schema declares no path `completedAt`. -/
structure Todo where
  _id : ObjectId
  user : ObjectId
  title : String
  description : String := ""
  isCompleted : Bool := false
  priority : Int := 1
  dueDate : Option Timestamp := none
  tags : List String := []
  category : String := "General"
  createdAt : Timestamp := 0
  updatedAt : Timestamp := 0
  deriving DecidableEq, Repr

/-- The collection, in storage order. -/
abbrev Collection := List Todo

/-! ## Virtuals -/

/-- The virtual `status`. -/
def status (t : Todo) : String :=
  if t.isCompleted then "completed" else "pending"

/-- The virtual `priorityString`: `priorities[this.priority] || 'Low'`. -/
def priorityString (t : Todo) : String :=
  if t.priority = 1 then "Low"
  else if t.priority = 2 then "Medium"
  else if t.priority = 3 then "High"
  else "Low"

/-- The virtual `isOverdue`, with `now` the value of `new Date()`:
`if (!this.dueDate || this.isCompleted) return false; return now > this.dueDate`. -/
def isOverdue (now : Timestamp) (t : Todo) : Bool :=
  match t.dueDate with
  | none => false
  | some due => if t.isCompleted then false else decide (now > due)

/-- The date a stored or serialized todo holds under a name: `dueDate`,
`createdAt` and `updatedAt` are the paths of `todoSchema` that hold a date;
under any other name, `completedAt` included, the todo holds none. -/
def datePath (t : Todo) (path : String) : Option Timestamp :=
  if path = "dueDate" then t.dueDate
  else if path = "createdAt" then some t.createdAt
  else if path = "updatedAt" then some t.updatedAt
  else none

/-! ## White space -/

/-- White space as the pattern `\s` of a JavaScript regular expression and
`String.prototype.trim` see it. -/
def isSpace (c : Char) : Bool :=
  let n := c.toNat
  n == 9 || n == 10 || n == 11 || n == 12 || n == 13 || n == 32 || n == 0xA0
    || n == 0x1680 || (0x2000 ≤ n && n ≤ 0x200A) || n == 0x2028 || n == 0x2029
    || n == 0x202F || n == 0x205F || n == 0x3000 || n == 0xFEFF

/-- White space removed at both ends: the sanitizer `trim()` of the
validation chains and the setter of `trim: true` in the schema. -/
def trim (s : String) : String :=
  ⟨((s.data.dropWhile isSpace).reverse.dropWhile isSpace).reverse⟩

/-! ## `findByUser` -/

/-- The `options` argument of `findByUser`; `none` is `undefined`. -/
structure FindOptions where
  isCompleted : Option Bool := none
  priority : Option Int := none
  category : Option String := none
  search : Option String := none
  deriving DecidableEq, Repr

/-- The query document built by `findByUser`; `regex` is the pattern shared by
the two branches of `$or`. -/
structure Query where
  user : ObjectId
  isCompleted : Option Bool := none
  priority : Option Int := none
  category : Option String := none
  regex : Option String := none
  deriving DecidableEq, Repr

/-- Truthiness of a number that is an integer: every value but `0`. -/
def truthyNum (n : Int) : Bool := n != 0

/-- Truthiness of a string: every value but `''`. -/
def truthyStr (s : String) : Bool := s != ""

/-- The query document of `findByUser(userId, options)`:
`isCompleted` is copied when it is not `undefined`, `priority`, `category`
and `search` when they are truthy. -/
def buildQuery (userId : ObjectId) (options : FindOptions) : Query :=
  let query : Query := { user := userId }
  let query := match options.isCompleted with
    | some b => { query with isCompleted := some b }
    | none => query
  let query := match options.priority with
    | some p => if truthyNum p then { query with priority := some p } else query
    | none => query
  let query := match options.category with
    | some c => if truthyStr c then { query with category := some c } else query
    | none => query
  let query := match options.search with
    | some s => if truthyStr s then { query with regex := some s } else query
    | none => query
  query

/-- Whether a document satisfies a query document, as `find` runs it: equality
on each path that is present, and for `$or` the pattern against `title` or
`description`. `find` casts the filter through the schema, so the setter of
`trim: true` is applied to the `category` that is looked for.
`regexI pattern subject` stands for all that `find` does with
`{ $regex: pattern, $options: 'i' }` on a string path. -/
def Query.matches (regexI : String → String → Bool) (q : Query) (t : Todo) : Bool :=
  (t.user == q.user)
  && (match q.isCompleted with | some b => t.isCompleted == b | none => true)
  && (match q.priority with | some p => t.priority == p | none => true)
  && (match q.category with | some c => t.category == trim c | none => true)
  && (match q.regex with
      | some s => regexI s t.title || regexI s t.description
      | none => true)

/-- The order of `.sort({ priority: -1, createdAt: -1 })`: `a` may stand
before `b`. -/
def sortBefore (a b : Todo) : Prop :=
  a.priority > b.priority ∨ (a.priority = b.priority ∧ a.createdAt ≥ b.createdAt)

instance : DecidableRel sortBefore := fun a b => by
  unfold sortBefore; exact inferInstance

/-- The static `findByUser`: `this.find(query).sort({ priority: -1, createdAt: -1 })`. -/
def findByUser (regexI : String → String → Bool) (todos : Collection)
    (userId : ObjectId) (options : FindOptions) : List Todo :=
  (todos.filter (Query.matches regexI (buildQuery userId options))).insertionSort sortBefore

/-! ## `getUserStats` -/

/-- The document produced by the `$group` stage. -/
structure GroupResult where
  total : Nat
  completed : Nat
  pending : Nat
  highPriority : Nat
  overdue : Nat
  deriving DecidableEq, Repr

/-- The `$sum` accumulator over `$cond: [c, 1, 0]`. -/
def sumCond (c : Todo → Bool) (docs : List Todo) : Nat :=
  (docs.map fun t => if c t then 1 else 0).sum

/-- The aggregation pipeline of `getUserStats`: `$match` on the user, then one
`$group` with `_id: null`. No matched document gives no group. -/
def aggregate (todos : Collection) (userId : ObjectId) (now : Timestamp) : List GroupResult :=
  let matched := todos.filter fun t => t.user == userId
  match matched with
  | [] => []
  | _ :: _ =>
    [{ total := (matched.map fun _ => 1).sum
       completed := sumCond (fun t => t.isCompleted) matched
       pending := sumCond (fun t => !t.isCompleted) matched
       highPriority := sumCond (fun t => t.priority == 3) matched
       overdue := sumCond (fun t =>
         t.dueDate != none
           && (match t.dueDate with | some due => decide (now > due) | none => false)
           && (t.isCompleted == false)) matched }]

/-! ### Double-precision arithmetic -/

/-- Round to the nearest integer, ties to the even one. -/
def roundHalfEven (x : ℚ) : ℤ :=
  let f := ⌊x⌋
  let r := x - f
  if r < 1 / 2 then f
  else if 1 / 2 < r then f + 1
  else if f % 2 = 0 then f else f + 1

/-- The exponent of the binade of a nonzero `x`: `⌊log₂ |x|⌋`, and `-1022`
for the subnormal range. -/
def binade (x : ℚ) : ℤ := max (Int.log 2 |x|) (-1022)

/-- The unit in the last place at `x`: 52 bits below the binade. -/
def ulp (x : ℚ) : ℚ := (2 : ℚ) ^ (binade x - 52)

/-- The IEEE 754 binary64 value nearest to `x`, ties to even, for `x` below
the overflow threshold `2 ^ 1024`. -/
def roundDouble (x : ℚ) : ℚ :=
  if x = 0 then 0 else roundHalfEven (x / ulp x) * ulp x

/-- JavaScript `a / b` on finite doubles, `b ≠ 0`. -/
def jsDiv (a b : ℚ) : ℚ := roundDouble (a / b)

/-- JavaScript `a * b` on finite doubles. -/
def jsMul (a b : ℚ) : ℚ := roundDouble (a * b)

/-- The object returned by `getUserStats`. -/
structure Stats where
  total : Nat
  completed : Nat
  pending : Nat
  highPriority : Nat
  overdue : Nat
  completionPercentage : ℚ
  deriving DecidableEq, Repr

/-- The static `getUserStats`:
`result = stats[0] || { total: 0, ... }`, then
`completionPercentage = total > 0 ? (completed / total) * 100 : 0`. -/
def getUserStats (todos : Collection) (userId : ObjectId) (now : Timestamp) : Stats :=
  let stats := aggregate todos userId now
  let result : GroupResult := match stats.head? with
    | some r => r
    | none => { total := 0, completed := 0, pending := 0, highPriority := 0, overdue := 0 }
  { total := result.total
    completed := result.completed
    pending := result.pending
    highPriority := result.highPriority
    overdue := result.overdue
    completionPercentage :=
      if result.total > 0 then jsMul (jsDiv result.completed result.total) 100 else 0 }

/-! ## The todos router -/

/-- The envelope a handler sends, with `todo` the document under `data`. -/
structure Response where
  status : Nat
  success : Bool
  message : String
  todo : Option Todo := none
  deriving DecidableEq, Repr

/-- The query `Todo.findOne({ _id: id, user: user })`: the first such document. -/
def findOne (db : Collection) (id user : ObjectId) : Option Todo :=
  db.find? fun t => t._id == id && t.user == user

/-- The call `todo.save()` on a loaded document: the stored document with its
`_id` is replaced. -/
def save (db : Collection) (todo : Todo) : Collection :=
  db.map fun d => if d._id == todo._id then todo else d

/-- What a handler holds after `findOne`: the document, and the value the
handler has assigned to the property `completedAt` of the object (`none`:
nothing assigned, `some none`: `null`). `completedAt` is no path of
`todoSchema`, so `save()` does not store the value and the response does not
serialize it. -/
structure LoadedTodo where
  doc : Todo
  completedAt : Option (Option Timestamp) := none
  deriving DecidableEq, Repr

/-- Handler of `PATCH /:id/toggle`, with `now` the time of the request: the
value of `new Date()` in the handler and the `updatedAt` that `save()` writes.
A route parameter that does not cast to an `ObjectId` makes `findOne` throw,
which the `catch` turns into 500. `save()` stores the modified path
`isCompleted` and rewrites `updatedAt`; the `completedAt` of the loaded
object is left behind. -/
def toggleTodo (castId : String → Option ObjectId) (db : Collection) (user : ObjectId)
    (idParam : String) (now : Timestamp) : Response × Collection :=
  match castId idParam with
  | none => ({ status := 500, success := false, message := "Server error while toggling todo" }, db)
  | some id =>
    match findOne db id user with
    | none => ({ status := 404, success := false, message := "Todo not found" }, db)
    | some found =>
      let todo : LoadedTodo := { doc := found }
      let todo := { todo with doc := { todo.doc with isCompleted := !todo.doc.isCompleted } }
      let todo :=
        if todo.doc.isCompleted then { todo with completedAt := some (some now) }
        else { todo with completedAt := some none }
      let saved : Todo := { todo.doc with updatedAt := now }
      ({ status := 200, success := true,
         message := "Todo marked as " ++ (if saved.isCompleted then "completed" else "pending"),
         todo := some saved },
       save db saved)

/-- Handler of `DELETE /:id`: `findOneAndDelete({ _id, user })` removes the
first document that matches and returns it, or returns `null`. -/
def deleteTodo (castId : String → Option ObjectId) (db : Collection) (user : ObjectId)
    (idParam : String) : Response × Collection :=
  match castId idParam with
  | none => ({ status := 500, success := false, message := "Server error while deleting todo" }, db)
  | some id =>
    match findOne db id user with
    | none => ({ status := 404, success := false, message := "Todo not found" }, db)
    | some _ =>
      ({ status := 200, success := true, message := "Todo deleted successfully" },
       db.eraseP fun t => t._id == id && t.user == user)

/-- Handler of `DELETE /clear-completed`:
`deleteMany({ user, isCompleted: true })`, the count in the message. -/
def clearCompleted (db : Collection) (user : ObjectId) : Response × Collection :=
  let deletedCount := db.countP fun t => t.user == user && t.isCompleted == true
  ({ status := 200, success := true,
     message := "Cleared " ++ toString deletedCount ++ " completed todos" },
   db.filter fun t => !(t.user == user && t.isCompleted == true))

/-! ### Dispatch -/

inductive Method
  | GET | POST | PUT | PATCH | DELETE
  deriving DecidableEq, Repr

/-- One segment of a route path: a literal, or a named parameter `:name`. -/
inductive Segment
  | lit (s : String)
  | param (name : String)
  deriving DecidableEq, Repr

inductive Handler
  | list | getOne | create | update | toggle | deleteOne | clearCompleted | statsSummary
  deriving DecidableEq, Repr

/-- The routes of `routes/todos.js`, in the order of their registration. -/
def routes : List (Method × List Segment × Handler) :=
  [ (.GET, [], .list),
    (.GET, [.param "id"], .getOne),
    (.POST, [], .create),
    (.PUT, [.param "id"], .update),
    (.PATCH, [.param "id", .lit "toggle"], .toggle),
    (.DELETE, [.param "id"], .deleteOne),
    (.DELETE, [.lit "clear-completed"], .clearCompleted),
    (.GET, [.lit "stats", .lit "summary"], .statsSummary) ]

/-- Match a route path against the segments of a request path; a parameter
takes one whole non-empty segment. The result is `req.params`. -/
def matchPath : List Segment → List String → Option (List (String × String))
  | [], [] => some []
  | .lit s :: ps, x :: xs => if s = x then matchPath ps xs else none
  | .param name :: ps, x :: xs =>
    if x = "" then none else (matchPath ps xs).map fun params => (name, x) :: params
  | _, _ => none

/-- The first registered route whose method and path match. Every handler
answers without calling `next`, so no later route is tried. -/
def route (method : Method) (path : List String) : Option (Handler × List (String × String)) :=
  routes.findSome? fun r =>
    if r.1 = method then (matchPath r.2.1 path).map fun params => (r.2.2, params) else none

/-- A `DELETE` request through the router. `none`: no route answers. -/
def dispatchDelete (castId : String → Option ObjectId) (db : Collection) (user : ObjectId)
    (path : List String) : Option (Response × Collection) :=
  match route .DELETE path with
  | some (.deleteOne, params) => some (deleteTodo castId db user ((params.lookup "id").getD ""))
  | some (.clearCompleted, _) => some (clearCompleted db user)
  | _ => none

/-! ### Request validation

A request body is modelled with each field at the type its validator expects:
strings for `title`, `description` and `category`, an integer for `priority`,
`null` or a string for `dueDate`, an array of strings for `tags`.
`none` is `undefined`. -/

/-- The JavaScript `length` of a string: its number of UTF-16 code units, two
for a character outside the Basic Multilingual Plane. -/
def utf16Length (s : String) : Nat :=
  (s.data.map fun c => if c.toNat < 0x10000 then 1 else 2).sum

/-- The surrogate pairs of a string, one for each character outside the Basic
Multilingual Plane. -/
def surrogatePairs (s : String) : Nat :=
  s.data.countP fun c => decide (0x10000 ≤ c.toNat)

/-- The variation selectors `U+FE0E` and `U+FE0F` of a string. -/
def presentationSequences (s : String) : Nat :=
  s.data.countP fun c => c.toNat == 0xFE0F || c.toNat == 0xFE0E

/-- The length that the validator `isLength` measures:
`str.length - presentationSequences.length - surrogatePairs.length`. -/
def validatorLength (s : String) : Nat :=
  utf16Length s - presentationSequences s - surrogatePairs s

/-- The validator `isLength({ min, max })`. -/
def isLength (s : String) (min max : Nat) : Bool :=
  decide (min ≤ validatorLength s) && decide (validatorLength s ≤ max)

/-- The validator `isInt({ min, max })` on an integer. -/
def isInt (n min max : Int) : Bool :=
  decide (min ≤ n) && decide (n ≤ max)

/-- A value of the body field `dueDate`. -/
inductive DueDateInput
  | null
  | str (s : String)
  deriving DecidableEq, Repr

structure TodoBody where
  title : Option String := none
  description : Option String := none
  priority : Option Int := none
  dueDate : Option DueDateInput := none
  category : Option String := none
  tags : Option (List String) := none
  deriving DecidableEq, Repr

/-- One entry of `errors.array()`. -/
structure ValidationError where
  path : String
  msg : String
  deriving DecidableEq, Repr

/-- The chain `.optional().trim().isLength({ max })`: the error if any, and
the sanitized value. -/
def checkOptionalText (path msg : String) (max : Nat) (value : Option String) :
    List ValidationError × Option String :=
  match value with
  | none => ([], none)
  | some v =>
    let v := trim v
    (if isLength v 0 max then [] else [{ path := path, msg := msg }], some v)

/-- The chain on `priority`: `.optional().isInt({ min: 1, max: 3 })`. -/
def checkPriority (value : Option Int) : List ValidationError :=
  match value with
  | none => []
  | some p =>
    if isInt p 1 3 then [] else [{ path := "priority", msg := "Priority must be 1, 2, or 3" }]

/-- The chain on `dueDate`: `.optional().custom(...)`, where `null` and `''`
pass and any other value must give a valid `Date`. -/
def checkDueDate (parseDate : String → Option Timestamp) (value : Option DueDateInput) :
    List ValidationError :=
  match value with
  | none => []
  | some .null => []
  | some (.str s) =>
    if s = "" then []
    else if (parseDate s).isSome then []
    else [{ path := "dueDate", msg := "Due date must be a valid ISO date or null" }]

/-- The chain on `tags`: `.optional().isArray({ max: 10 })`. -/
def checkTags (value : Option (List String)) : List ValidationError :=
  match value with
  | none => []
  | some ts =>
    if ts.length ≤ 10 then []
    else [{ path := "tags", msg := "Tags must be an array with maximum 10 items" }]

/-- The errors of the chain on `tags.*` for the entries from index `i` on:
one for each entry that fails `isLength({ min: 1, max: 20 })`. -/
def tagEntryErrors (i : Nat) : List String → List ValidationError
  | [] => []
  | t :: ts =>
    (if isLength t 1 20 then []
     else [{ path := "tags[" ++ toString i ++ "]",
             msg := "Each tag must be between 1 and 20 characters" }])
      ++ tagEntryErrors (i + 1) ts

/-- The chain on `tags.*`: `.optional().trim().isLength({ min: 1, max: 20 })`,
run on every entry of the array. -/
def checkTagEntries (value : Option (List String)) : List ValidationError × Option (List String) :=
  match value with
  | none => ([], none)
  | some ts =>
    let ts := ts.map trim
    (tagEntryErrors 0 ts, some ts)

/-- The validation chains of `POST /`, in their order; the result is
`validationResult(req).array()` and the sanitized body. A `title` that is
`undefined` is validated as `''`. -/
def validateCreate (parseDate : String → Option Timestamp) (body : TodoBody) :
    List ValidationError × TodoBody :=
  let title := trim (body.title.getD "")
  let eTitle : List ValidationError :=
    if isLength title 1 200 then []
    else [{ path := "title", msg := "Title must be between 1 and 200 characters" }]
  let (eDescription, description) :=
    checkOptionalText "description" "Description cannot exceed 1000 characters" 1000 body.description
  let ePriority := checkPriority body.priority
  let eDueDate := checkDueDate parseDate body.dueDate
  let (eCategory, category) :=
    checkOptionalText "category" "Category cannot exceed 50 characters" 50 body.category
  let eTags := checkTags body.tags
  let (eTagEntries, tags) := checkTagEntries body.tags
  (eTitle ++ eDescription ++ ePriority ++ eDueDate ++ eCategory ++ eTags ++ eTagEntries,
   { title := some title, description := description, priority := body.priority,
     dueDate := body.dueDate, category := category, tags := tags })

/-- The validation chains of `PUT /:id`, in their order: those of `POST /`
with `title` optional, and no chain on `tags.*`. -/
def validateUpdate (parseDate : String → Option Timestamp) (body : TodoBody) :
    List ValidationError × TodoBody :=
  let (eTitle, title) : List ValidationError × Option String :=
    match body.title with
    | none => ([], none)
    | some v =>
      let v := trim v
      (if isLength v 1 200 then []
       else [{ path := "title", msg := "Title must be between 1 and 200 characters" }], some v)
  let (eDescription, description) :=
    checkOptionalText "description" "Description cannot exceed 1000 characters" 1000 body.description
  let ePriority := checkPriority body.priority
  let eDueDate := checkDueDate parseDate body.dueDate
  let (eCategory, category) :=
    checkOptionalText "category" "Category cannot exceed 50 characters" 50 body.category
  let eTags := checkTags body.tags
  (eTitle ++ eDescription ++ ePriority ++ eDueDate ++ eCategory ++ eTags,
   { title := title, description := description, priority := body.priority,
     dueDate := body.dueDate, category := category, tags := body.tags })

/-! ### Schema validation and the writing handlers -/

/-- The setters of the schema (`trim: true`) applied to a document. -/
def applySetters (t : Todo) : Todo :=
  { t with title := trim t.title, description := trim t.description,
           category := trim t.category, tags := t.tags.map trim }

/-- The validators of `todoSchema` that `save()` runs: `required` and
`maxlength` on `title`, `maxlength` on `description`, `category` and each
tag, `enum` on `priority`. `maxlength` compares the JavaScript `length`. -/
def schemaValid (t : Todo) : Bool :=
  t.title != "" && decide (utf16Length t.title ≤ 200)
    && decide (utf16Length t.description ≤ 1000)
    && (t.priority == 1 || t.priority == 2 || t.priority == 3)
    && t.tags.all (fun tag => decide (utf16Length tag ≤ 20))
    && decide (utf16Length t.category ≤ 50)

/-- The cast of a `dueDate` value to the `Date` path: `null` and `''` give
`null`; a string that does not parse is a cast error (outer `none`). -/
def castDueDate (parseDate : String → Option Timestamp) :
    DueDateInput → Option (Option Timestamp)
  | .null => some none
  | .str s => if s = "" then some none else (parseDate s).map some

/-- Handler of `POST /`. `newId` is the `_id` the new document receives and
`now` its `createdAt` and `updatedAt`. The `pre('save')` lookup of the user is taken to
succeed for the authenticated caller. An error thrown by `save()` is
answered with 500. -/
def createTodo (parseDate : String → Option Timestamp) (db : Collection) (user : ObjectId)
    (body : TodoBody) (newId : ObjectId) (now : Timestamp) : Response × Collection :=
  let (errors, body) := validateCreate parseDate body
  if !errors.isEmpty then
    ({ status := 400, success := false, message := "Validation failed" }, db)
  else
    let serverError : Response × Collection :=
      ({ status := 500, success := false, message := "Server error while creating todo" }, db)
    -- `dueDate || null`
    let dueDate : DueDateInput := match body.dueDate with
      | some (.str s) => if truthyStr s then .str s else .null
      | _ => .null
    match castDueDate parseDate dueDate with
    | none => serverError
    | some due =>
      let todo : Todo := applySetters
        { _id := newId
          user := user
          title := body.title.getD ""
          description := match body.description with
            | some d => if truthyStr d then d else ""
            | none => ""
          priority := match body.priority with
            | some p => if truthyNum p then p else 1
            | none => 1
          dueDate := due
          category := match body.category with
            | some c => if truthyStr c then c else "General"
            | none => "General"
          tags := body.tags.getD []
          createdAt := now
          updatedAt := now }
      if schemaValid todo then
        ({ status := 201, success := true, message := "Todo created successfully",
           todo := some todo }, db ++ [todo])
      else serverError

/-- Handler of `PUT /:id`: validation, lookup of the caller's document, then
every field of the body that is not `undefined` is assigned and the document
saved. `save()` rewrites `updatedAt` with `now` when an assignment has
changed the document, and writes nothing otherwise. -/
def updateTodo (castId : String → Option ObjectId) (parseDate : String → Option Timestamp)
    (db : Collection) (user : ObjectId) (idParam : String) (body : TodoBody)
    (now : Timestamp) : Response × Collection :=
  let (errors, body) := validateUpdate parseDate body
  if !errors.isEmpty then
    ({ status := 400, success := false, message := "Validation failed" }, db)
  else
    let serverError : Response × Collection :=
      ({ status := 500, success := false, message := "Server error while updating todo" }, db)
    match castId idParam with
    | none => serverError
    | some id =>
      match findOne db id user with
      | none => ({ status := 404, success := false, message := "Todo not found" }, db)
      | some found =>
        let todo := found
        let todo := match body.title with
          | some v => { todo with title := v } | none => todo
        let todo := match body.description with
          | some v => { todo with description := v } | none => todo
        let todo := match body.priority with
          | some v => { todo with priority := v } | none => todo
        match (match body.dueDate with
               | some v => (castDueDate parseDate v).map fun d => { todo with dueDate := d }
               | none => some todo) with
        | none => serverError
        | some todo =>
          let todo := match body.category with
            | some v => { todo with category := v } | none => todo
          let todo := match body.tags with
            | some v => { todo with tags := v } | none => todo
          let todo := applySetters todo
          if schemaValid todo then
            let saved : Todo := if todo = found then found else { todo with updatedAt := now }
            ({ status := 200, success := true, message := "Todo updated successfully",
               todo := some saved }, save db saved)
          else serverError

/-! ## Data of the examples -/

/-- The cast Mongoose applies to a route parameter, used in the examples: a
string of 24 hexadecimal digits is an `ObjectId`, written with lower-case
digits, any other string a cast error. -/
def castObjectId (s : String) : Option ObjectId :=
  if s.length = 24 ∧ s.data.all (fun c => c.isDigit || ('a' ≤ c && c ≤ 'f') || ('A' ≤ c && c ≤ 'F'))
  then some ⟨s.data.map Char.toLower⟩ else none

/-- Twenty-five todos of user `u`, the first seven completed. -/
def sevenOfTwentyFive : Collection :=
  (List.range 25).map fun i =>
    { _id := toString i, user := "u", title := "t", isCompleted := decide (i < 7) }

/-- A completed todo of user `u`. -/
def completedTodo : Todo :=
  { _id := "65f000000000000000000001", user := "u", title := "t", isCompleted := true }

/-- A pending todo of user `u`. -/
def pendingTodo : Todo :=
  { _id := "65f000000000000000000002", user := "u", title := "t" }

/-- A title of 200 characters, all of them spaces. -/
def blankTitle : String := ⟨List.replicate 200 ' '⟩

/-- A title of 201 characters: 200 letters and a space at the end. -/
def paddedTitle : String := ⟨List.replicate 200 'a' ++ [' ']⟩

/-! ## Properties of `findByUser` -/

theorem mem_findByUser (regexI : String → String → Bool) (todos : Collection)
    (userId : ObjectId) (options : FindOptions) (t : Todo) :
    t ∈ findByUser regexI todos userId options
      ↔ t ∈ todos ∧ Query.matches regexI (buildQuery userId options) t = true := by
  unfold findByUser
  rw [List.mem_insertionSort, List.mem_filter]

/-- C1. With no filter, `findByUser` returns exactly the todos of the user:
a todo is in the result if and only if it is in the collection and its user
is `U`, and the result is a rearrangement of those todos (none lost, none
repeated). -/
theorem findByUser_no_filter (regexI : String → String → Bool) (todos : Collection)
    (U : ObjectId) :
    (∀ t, t ∈ findByUser regexI todos U {} ↔ t ∈ todos ∧ t.user = U)
      ∧ (findByUser regexI todos U {}).Perm (todos.filter fun t => t.user == U) := by
  have hm : ∀ t, Query.matches regexI (buildQuery U {}) t = (t.user == U) := by
    intro t
    simp [Query.matches, buildQuery]
  constructor
  · intro t
    rw [mem_findByUser, hm]
    simp
  · unfold findByUser
    refine (List.perm_insertionSort _ _).trans ?_
    rw [List.filter_congr (fun t _ => hm t)]

/-- C2 as stated fails: with `category: ''` in the options the todo of
category `General` is returned, although its category is not the given one. -/
theorem findByUser_present_filter_counterexample :
    ¬ ∀ (regexI : String → String → Bool) (todos : Collection) (U : ObjectId)
        (options : FindOptions) (t : Todo),
        t ∈ findByUser regexI todos U options
          ↔ t ∈ todos ∧ t.user = U
            ∧ (∀ b, options.isCompleted = some b → t.isCompleted = b)
            ∧ (∀ p, options.priority = some p → t.priority = p)
            ∧ (∀ c, options.category = some c → t.category = c)
            ∧ (∀ s, options.search = some s →
                regexI s t.title = true ∨ regexI s t.description = true) := by
  intro h
  have h1 := h (fun _ _ => false) [{ _id := "1", user := "u", title := "t" }] "u"
    { category := some "" } { _id := "1", user := "u", title := "t" }
  have h2 : ({ _id := "1", user := "u", title := "t" } : Todo)
      ∈ findByUser (fun _ _ => false) [{ _id := "1", user := "u", title := "t" }] "u"
          { category := some "" } := by decide
  have h3 := (h1.mp h2).2.2.2.2.1 "" rfl
  exact absurd h3 (by decide)

/-- C2, amended. A todo is in the result of `findByUser(U, options)` if and
only if it is in the collection, its user is `U`, and it satisfies every
filter that is applied: `isCompleted` whenever it is given (`false`
included), `priority` when the given number is not `0`, `category` when the
given string is not empty, the category of the todo then being the given
string with the white space at its ends removed, and `search` when it is not
empty, as a case-insensitive pattern against the title or the description. -/
theorem findByUser_truthy_filters (regexI : String → String → Bool) (todos : Collection)
    (U : ObjectId) (options : FindOptions) (t : Todo) :
    t ∈ findByUser regexI todos U options
      ↔ t ∈ todos ∧ t.user = U
        ∧ (∀ b, options.isCompleted = some b → t.isCompleted = b)
        ∧ (∀ p, options.priority = some p → p ≠ 0 → t.priority = p)
        ∧ (∀ c, options.category = some c → c ≠ "" → t.category = trim c)
        ∧ (∀ s, options.search = some s → s ≠ "" →
            regexI s t.title = true ∨ regexI s t.description = true) := by
  rw [mem_findByUser]
  obtain ⟨oc, op, ocat, os⟩ := options
  have e : Query.matches regexI (buildQuery U ⟨oc, op, ocat, os⟩) t = true
      ↔ t.user = U
        ∧ (∀ b, oc = some b → t.isCompleted = b)
        ∧ (∀ p, op = some p → p ≠ 0 → t.priority = p)
        ∧ (∀ c, ocat = some c → c ≠ "" → t.category = trim c)
        ∧ (∀ s, os = some s → s ≠ "" →
            regexI s t.title = true ∨ regexI s t.description = true) := by
    cases oc <;> cases op <;> cases ocat <;> cases os <;>
      simp [Query.matches, buildQuery, truthyNum, truthyStr] <;>
      split_ifs <;> simp_all [and_assoc]
  simp only [e]

/-! ## Properties of `getUserStats` -/

theorem sumCond_add_not (c : Todo → Bool) (docs : List Todo) :
    sumCond c docs + sumCond (fun t => !c t) docs = (docs.map fun _ => 1).sum := by
  induction docs with
  | nil => rfl
  | cons d ds ih =>
    simp only [sumCond, List.map_cons, List.sum_cons] at ih ⊢
    by_cases h : c d = true
    · simp only [h, if_true, Bool.not_true, Bool.false_eq_true, if_false]; omega
    · simp only [Bool.not_eq_true] at h
      simp only [h, Bool.false_eq_true, if_false, Bool.not_false, if_true]; omega

theorem sumCond_le (c : Todo → Bool) (docs : List Todo) :
    sumCond c docs ≤ (docs.map fun _ => 1).sum := by
  have := sumCond_add_not c docs
  omega

/-- C3. The statistics of every user satisfy `completed + pending = total`;
a user with no todo gets the three counts equal to `0`. -/
theorem getUserStats_completed_add_pending (todos : Collection) (U : ObjectId)
    (now : Timestamp) :
    (getUserStats todos U now).completed + (getUserStats todos U now).pending
        = (getUserStats todos U now).total
      ∧ ((∀ t ∈ todos, t.user ≠ U) →
          (getUserStats todos U now).total = 0
            ∧ (getUserStats todos U now).completed = 0
            ∧ (getUserStats todos U now).pending = 0) := by
  constructor
  · unfold getUserStats aggregate
    cases h : todos.filter (fun t => t.user == U) with
    | nil => simp
    | cons d ds =>
      simp only [List.head?_cons]
      exact sumCond_add_not (fun t => t.isCompleted) (d :: ds)
  · intro hno
    have h : todos.filter (fun t => t.user == U) = [] := by
      rw [List.filter_eq_nil_iff]
      intro t ht
      simpa using hno t ht
    simp [getUserStats, aggregate, h]

/-! ## Properties of the virtuals -/

/-- C5. `isOverdue` is true if and only if the todo has a due date before
`now` and is not completed; it is false for every completed todo and for
every todo without a due date. -/
theorem isOverdue_iff (now : Timestamp) (t : Todo) :
    (isOverdue now t = true ↔ (∃ due, t.dueDate = some due ∧ due < now) ∧ t.isCompleted = false)
      ∧ (t.isCompleted = true → isOverdue now t = false)
      ∧ (t.dueDate = none → isOverdue now t = false) := by
  unfold isOverdue
  cases hd : t.dueDate <;> cases hc : t.isCompleted <;> simp

/-! ## Double-precision arithmetic: bounds of the rounding -/

theorem roundHalfEven_cases (x : ℚ) :
    (roundHalfEven x = ⌊x⌋ ∧ x - ⌊x⌋ ≤ 1 / 2)
      ∨ (roundHalfEven x = ⌊x⌋ + 1 ∧ 1 / 2 ≤ x - ⌊x⌋) := by
  unfold roundHalfEven
  simp only
  split_ifs with h1 h2 h3
  · exact Or.inl ⟨rfl, le_of_lt h1⟩
  · exact Or.inr ⟨rfl, le_of_lt h2⟩
  · exact Or.inl ⟨rfl, not_lt.mp h2⟩
  · exact Or.inr ⟨rfl, not_lt.mp h1⟩

theorem roundHalfEven_le (x : ℚ) (k : ℤ) (h : x ≤ k) : roundHalfEven x ≤ k := by
  have hf := Int.floor_le x
  rcases roundHalfEven_cases x with ⟨e, _⟩ | ⟨e, hr⟩
  · rw [e]
    have : ((⌊x⌋ : ℤ) : ℚ) ≤ k := le_trans hf h
    exact_mod_cast this
  · rw [e]
    have : ((⌊x⌋ : ℤ) : ℚ) < k := by linarith
    have : ⌊x⌋ < k := by exact_mod_cast this
    omega

theorem roundHalfEven_nonneg (x : ℚ) (h : 0 ≤ x) : 0 ≤ roundHalfEven x := by
  have hf : 0 ≤ ⌊x⌋ := Int.floor_nonneg.mpr h
  rcases roundHalfEven_cases x with ⟨e, _⟩ | ⟨e, _⟩ <;> omega

theorem abs_roundHalfEven_sub (x : ℚ) : |(roundHalfEven x : ℚ) - x| ≤ 1 / 2 := by
  have hf := Int.floor_le x
  have hl := Int.lt_floor_add_one x
  rw [abs_le]
  rcases roundHalfEven_cases x with ⟨e, hr⟩ | ⟨e, hr⟩
  · rw [e]; constructor <;> linarith
  · rw [e]; push_cast; constructor <;> linarith

theorem roundHalfEven_eq (x : ℚ) (k : ℤ) (h1 : (k : ℚ) - 1 / 2 < x) (h2 : x < k + 1 / 2) :
    roundHalfEven x = k := by
  have hf := Int.floor_le x
  have hl := Int.lt_floor_add_one x
  rcases roundHalfEven_cases x with ⟨e, hr⟩ | ⟨e, hr⟩
  · rw [e]
    have a : ((⌊x⌋ : ℤ) : ℚ) < k + 1 := by linarith
    have b : (k : ℚ) - 1 < ⌊x⌋ := by linarith
    have a' : ⌊x⌋ < k + 1 := by exact_mod_cast a
    have b' : k - 1 < ⌊x⌋ := by exact_mod_cast b
    omega
  · rw [e]
    have a : ((⌊x⌋ : ℤ) : ℚ) < k := by linarith
    have b : (k : ℚ) - 2 < ⌊x⌋ := by linarith
    have a' : ⌊x⌋ < k := by exact_mod_cast a
    have b' : k - 2 < ⌊x⌋ := by exact_mod_cast b
    omega

theorem log_two_eq (x : ℚ) (e : ℤ) (h1 : (2 : ℚ) ^ e ≤ x) (h2 : x < (2 : ℚ) ^ (e + 1)) :
    Int.log 2 x = e := by
  have hx : 0 < x := lt_of_lt_of_le (zpow_pos (by norm_num) e) h1
  have a : e ≤ Int.log 2 x := (Int.zpow_le_iff_le_log (by norm_num) hx).mp (by exact_mod_cast h1)
  have b : Int.log 2 x < e + 1 := (Int.lt_zpow_iff_log_lt (by norm_num) hx).mp (by exact_mod_cast h2)
  omega

theorem ulp_pos (x : ℚ) : 0 < ulp x := zpow_pos (by norm_num) _

theorem binade_le (x y : ℚ) (hx : 0 < x) (hxy : x ≤ y) (hy : -1022 ≤ Int.log 2 y) :
    binade x ≤ Int.log 2 y := by
  unfold binade
  rw [abs_of_pos hx]
  exact max_le (Int.log_mono_right hx hxy) hy

theorem ulp_le (x y : ℚ) (hx : 0 < x) (hxy : x ≤ y) (hy : -1022 ≤ Int.log 2 y) :
    ulp x ≤ (2 : ℚ) ^ (Int.log 2 y - 52) := by
  unfold ulp
  apply zpow_le_zpow_right₀ (by norm_num)
  have := binade_le x y hx hxy hy
  omega

theorem roundDouble_nonneg (x : ℚ) (h : 0 ≤ x) : 0 ≤ roundDouble x := by
  unfold roundDouble
  split_ifs with h0
  · exact le_refl 0
  · have hu := ulp_pos x
    have : 0 ≤ roundHalfEven (x / ulp x) := roundHalfEven_nonneg _ (div_nonneg h hu.le)
    have : (0 : ℚ) ≤ roundHalfEven (x / ulp x) := by exact_mod_cast this
    positivity

theorem abs_roundDouble_sub (x : ℚ) : |roundDouble x - x| ≤ ulp x / 2 := by
  have hu := ulp_pos x
  unfold roundDouble
  split_ifs with h0
  · subst h0; simp; positivity
  · have h := abs_roundHalfEven_sub (x / ulp x)
    have e : (roundHalfEven (x / ulp x) : ℚ) * ulp x - x
        = ((roundHalfEven (x / ulp x) : ℚ) - x / ulp x) * ulp x := by
      field_simp
    rw [e, abs_mul, abs_of_pos hu]
    calc |(roundHalfEven (x / ulp x) : ℚ) - x / ulp x| * ulp x ≤ 1 / 2 * ulp x :=
          mul_le_mul_of_nonneg_right h hu.le
      _ = ulp x / 2 := by ring

/-- Rounding does not cross a double: below a value `y` on the grid of its
own binade, the rounded value stays below `y`. -/
theorem roundDouble_le (x y : ℚ) (K : ℤ) (hx : 0 < x) (hxy : x ≤ y)
    (hy : -1022 ≤ Int.log 2 y) (hK : y = K * (2 : ℚ) ^ (Int.log 2 y - 52)) :
    roundDouble x ≤ y := by
  have hu := ulp_pos x
  have hb := binade_le x y hx hxy hy
  obtain ⟨n, hn⟩ : ∃ n : ℕ, Int.log 2 y - 52 = (binade x - 52) + n :=
    ⟨(Int.log 2 y - binade x).toNat, by omega⟩
  have hyu : y = ((K * 2 ^ n : ℤ) : ℚ) * ulp x := by
    conv_lhs => rw [hK, hn, zpow_add₀ (by norm_num : (2 : ℚ) ≠ 0)]
    unfold ulp
    push_cast
    rw [zpow_natCast]
    ring
  unfold roundDouble
  rw [if_neg hx.ne']
  have hle : x / ulp x ≤ ((K * 2 ^ n : ℤ) : ℚ) := by
    rw [div_le_iff₀ hu, ← hyu]
    exact hxy
  have := roundHalfEven_le _ _ hle
  have : (roundHalfEven (x / ulp x) : ℚ) ≤ ((K * 2 ^ n : ℤ) : ℚ) := by exact_mod_cast this
  calc (roundHalfEven (x / ulp x) : ℚ) * ulp x ≤ ((K * 2 ^ n : ℤ) : ℚ) * ulp x :=
        mul_le_mul_of_nonneg_right this hu.le
    _ = y := hyu.symm

theorem roundDouble_le_one (x : ℚ) (h0 : 0 ≤ x) (h1 : x ≤ 1) : roundDouble x ≤ 1 := by
  rcases eq_or_lt_of_le h0 with h | h
  · subst h; simp [roundDouble]
  · apply roundDouble_le x 1 (2 ^ 52) h h1
    · rw [Int.log_one_right]; norm_num
    · rw [Int.log_one_right]; norm_num

theorem log_two_hundred : Int.log 2 (100 : ℚ) = 6 :=
  log_two_eq 100 6 (by norm_num) (by norm_num)

theorem roundDouble_le_hundred (x : ℚ) (h0 : 0 ≤ x) (h1 : x ≤ 100) : roundDouble x ≤ 100 := by
  rcases eq_or_lt_of_le h0 with h | h
  · subst h; simp [roundDouble]
  · apply roundDouble_le x 100 (100 * 2 ^ 46) h h1
    · rw [log_two_hundred]; norm_num
    · rw [log_two_hundred]; norm_num

/-! ## The completion percentage -/

theorem roundDouble_eval (x : ℚ) (e k : ℤ) (h1 : (2 : ℚ) ^ e ≤ x) (h2 : x < (2 : ℚ) ^ (e + 1))
    (he : -1022 ≤ e) (hk1 : (k : ℚ) - 1 / 2 < x / (2 : ℚ) ^ (e - 52))
    (hk2 : x / (2 : ℚ) ^ (e - 52) < k + 1 / 2) :
    roundDouble x = k * (2 : ℚ) ^ (e - 52) := by
  have hx : 0 < x := lt_of_lt_of_le (zpow_pos (by norm_num) e) h1
  have hb : binade x = e := by
    unfold binade
    rw [abs_of_pos hx, log_two_eq x e h1 h2]
    exact max_eq_left he
  unfold roundDouble ulp
  rw [if_neg hx.ne', hb, roundHalfEven_eq _ k hk1 hk2]

theorem jsDiv_seven_twentyFive : jsDiv 7 25 = 5044031582654956 * (2 : ℚ) ^ (-54 : ℤ) := by
  unfold jsDiv
  have := roundDouble_eval (7 / 25) (-2) 5044031582654956 (by norm_num) (by norm_num)
    (by norm_num) (by norm_num) (by norm_num)
  simpa using this

theorem jsMul_seven_twentyFive :
    jsMul (jsDiv 7 25) 100 = 28 + (2 : ℚ) ^ (-48 : ℤ) := by
  rw [jsDiv_seven_twentyFive]
  unfold jsMul
  have := roundDouble_eval (5044031582654956 * (2 : ℚ) ^ (-54 : ℤ) * 100) 4 7881299347898369
    (by norm_num) (by norm_num) (by norm_num) (by norm_num) (by norm_num)
  rw [this]
  norm_num

theorem percentage_bounds (c t : ℕ) (ht : 0 < t) (hc : c ≤ t) :
    0 ≤ jsMul (jsDiv c t) 100 ∧ jsMul (jsDiv c t) 100 ≤ 100
      ∧ |jsMul (jsDiv c t) 100 - 100 * c / t| ≤ (2 : ℚ) ^ (-45 : ℤ) := by
  have ht' : (0 : ℚ) < t := by exact_mod_cast ht
  have hc' : (c : ℚ) ≤ t := by exact_mod_cast hc
  have hq0 : (0 : ℚ) ≤ c / t := by positivity
  have hq1 : (c : ℚ) / t ≤ 1 := (div_le_one ht').mpr hc'
  have hd0 : 0 ≤ jsDiv c t := roundDouble_nonneg _ hq0
  have hd1 : jsDiv c t ≤ 1 := roundDouble_le_one _ hq0 hq1
  have hy0 : 0 ≤ jsDiv c t * 100 := by positivity
  have hy1 : jsDiv c t * 100 ≤ 100 := by linarith
  refine ⟨roundDouble_nonneg _ hy0, roundDouble_le_hundred _ hy0 hy1, ?_⟩
  -- the error of the division
  have e1 : |jsDiv c t - c / t| ≤ (2 : ℚ) ^ (-53 : ℤ) := by
    rcases eq_or_lt_of_le hq0 with h | h
    · rw [jsDiv, ← h]; simp [roundDouble]; positivity
    · have a := abs_roundDouble_sub ((c : ℚ) / t)
      have b := ulp_le _ 1 h hq1 (by rw [Int.log_one_right]; norm_num)
      rw [Int.log_one_right] at b
      unfold jsDiv
      calc |roundDouble (c / t) - c / t| ≤ ulp (c / t) / 2 := a
        _ ≤ (2 : ℚ) ^ ((0 : ℤ) - 52) / 2 := div_le_div_of_nonneg_right b (by norm_num)
        _ = (2 : ℚ) ^ (-53 : ℤ) := by norm_num
  -- the error of the multiplication
  have e2 : |jsMul (jsDiv c t) 100 - jsDiv c t * 100| ≤ (2 : ℚ) ^ (-47 : ℤ) := by
    rcases eq_or_lt_of_le hy0 with h | h
    · rw [jsMul, ← h]; simp [roundDouble]; positivity
    · have a := abs_roundDouble_sub (jsDiv c t * 100)
      have b := ulp_le _ 100 h hy1 (by rw [log_two_hundred]; norm_num)
      rw [log_two_hundred] at b
      unfold jsMul
      calc |roundDouble (jsDiv c t * 100) - jsDiv c t * 100| ≤ ulp (jsDiv c t * 100) / 2 := a
        _ ≤ (2 : ℚ) ^ ((6 : ℤ) - 52) / 2 := div_le_div_of_nonneg_right b (by norm_num)
        _ = (2 : ℚ) ^ (-47 : ℤ) := by norm_num
  have e3 : jsMul (jsDiv c t) 100 - 100 * c / t
      = (jsMul (jsDiv c t) 100 - jsDiv c t * 100) + 100 * (jsDiv c t - c / t) := by ring
  rw [e3]
  calc |(jsMul (jsDiv c t) 100 - jsDiv c t * 100) + 100 * (jsDiv c t - c / t)|
      ≤ |jsMul (jsDiv c t) 100 - jsDiv c t * 100| + |100 * (jsDiv c t - c / t)| := abs_add _ _
    _ = |jsMul (jsDiv c t) 100 - jsDiv c t * 100| + 100 * |jsDiv c t - c / t| := by
        rw [abs_mul]; norm_num
    _ ≤ (2 : ℚ) ^ (-47 : ℤ) + 100 * (2 : ℚ) ^ (-53 : ℤ) :=
        add_le_add e2 (mul_le_mul_of_nonneg_left e1 (by norm_num))
    _ ≤ (2 : ℚ) ^ (-45 : ℤ) := by norm_num

theorem getUserStats_completed_le (todos : Collection) (U : ObjectId) (now : Timestamp) :
    (getUserStats todos U now).completed ≤ (getUserStats todos U now).total := by
  unfold getUserStats aggregate
  cases h : todos.filter (fun t => t.user == U) with
  | nil => simp
  | cons d ds =>
    simp only [List.head?_cons]
    exact sumCond_le (fun t => t.isCompleted) (d :: ds)

theorem getUserStats_percentage_eq (todos : Collection) (U : ObjectId) (now : Timestamp) :
    (getUserStats todos U now).completionPercentage
      = if (getUserStats todos U now).total > 0
        then jsMul (jsDiv (getUserStats todos U now).completed (getUserStats todos U now).total) 100
        else 0 := rfl

/-- C4 as stated fails: with 7 of 25 todos completed the percentage is
`28 + 2 ^ (-48)` (printed `28.000000000000004`), not `100 * 7 / 25 = 28`. -/
theorem completionPercentage_exact_counterexample :
    ¬ ∀ (todos : Collection) (U : ObjectId) (now : Timestamp),
        (getUserStats todos U now).total ≠ 0 →
          (getUserStats todos U now).completionPercentage
            = 100 * ((getUserStats todos U now).completed : ℚ)
                / ((getUserStats todos U now).total : ℚ) := by
  intro h
  have h1 := h sevenOfTwentyFive "u" 0
  have ht : (getUserStats sevenOfTwentyFive "u" 0).total = 25 := by decide
  have hc : (getUserStats sevenOfTwentyFive "u" 0).completed = 7 := by decide
  rw [getUserStats_percentage_eq, ht, hc] at h1
  have h2 := h1 (by norm_num)
  simp only [gt_iff_lt, Nat.ofNat_pos, if_true, Nat.cast_ofNat] at h2
  rw [jsMul_seven_twentyFive] at h2
  norm_num at h2

/-- C4, amended. `completionPercentage` is `0` when `total` is `0`; otherwise
it is the double that `(completed / total) * 100` evaluates to, the quotient
and the product each rounded to the nearest double. It always lies between
`0` and `100`, and is within `2 ^ (-45)` of the exact `100 * completed / total`. -/
theorem getUserStats_completionPercentage (todos : Collection) (U : ObjectId)
    (now : Timestamp) :
    ((getUserStats todos U now).total = 0 → (getUserStats todos U now).completionPercentage = 0)
      ∧ ((getUserStats todos U now).total ≠ 0 →
          (getUserStats todos U now).completionPercentage
              = roundDouble (roundDouble ((getUserStats todos U now).completed
                  / (getUserStats todos U now).total) * 100)
            ∧ |(getUserStats todos U now).completionPercentage
                - 100 * ((getUserStats todos U now).completed : ℚ)
                    / ((getUserStats todos U now).total : ℚ)| ≤ (2 : ℚ) ^ (-45 : ℤ))
      ∧ 0 ≤ (getUserStats todos U now).completionPercentage
      ∧ (getUserStats todos U now).completionPercentage ≤ 100 := by
  have hle := getUserStats_completed_le todos U now
  rw [getUserStats_percentage_eq]
  by_cases ht : (getUserStats todos U now).total = 0
  · simp [ht]
  · have hpos : (getUserStats todos U now).total > 0 := Nat.pos_of_ne_zero ht
    have hb := percentage_bounds _ _ hpos hle
    simp only [hpos, if_true]
    exact ⟨fun h => absurd h ht, fun _ => ⟨rfl, hb.2.2⟩, hb.1, hb.2.1⟩

/-! ## Properties of the handlers -/

theorem findOne_some (db : Collection) (id user : ObjectId) (t : Todo)
    (h : findOne db id user = some t) : t ∈ db ∧ t._id = id ∧ t.user = user := by
  unfold findOne at h
  have h1 := List.mem_of_find?_eq_some h
  have h2 := List.find?_some h
  simp only [Bool.and_eq_true, beq_iff_eq] at h2
  exact ⟨h1, h2⟩

theorem findOne_save (db : Collection) (id user : ObjectId) (t u : Todo)
    (h : findOne db id user = some t) (hid : u._id = id) (hu : u.user = user) :
    findOne (save db u) id user = some u := by
  induction db with
  | nil => simp [findOne] at h
  | cons d ds ih =>
    unfold findOne save at *
    simp only [List.map_cons, List.find?_cons] at h ⊢
    by_cases hd : d._id = id
    · simp [hd, hid, hu]
    · have hd' : ¬ d._id = u._id := by rw [hid]; exact hd
      have e1 : (d._id == id) = false := by simpa using hd
      have e2 : (d._id == u._id) = false := by simpa using hd'
      rw [e1, Bool.false_and] at h
      rw [e2]
      simp only [Bool.false_eq_true, if_false, e1, Bool.false_and]
      exact ih h

theorem toggleTodo_found (castId : String → Option ObjectId) (db : Collection)
    (user : ObjectId) (idParam : String) (id : ObjectId) (now : Timestamp) (t : Todo)
    (hid : castId idParam = some id) (hf : findOne db id user = some t) :
    toggleTodo castId db user idParam now
      = ({ status := 200, success := true,
           message := "Todo marked as " ++ (if !t.isCompleted then "completed" else "pending"),
           todo := some { t with isCompleted := !t.isCompleted, updatedAt := now } },
         save db { t with isCompleted := !t.isCompleted, updatedAt := now }) := by
  unfold toggleTodo
  simp only [hid, hf]
  cases t.isCompleted <;> simp

/-- C6. For the todo that the caller's lookup finds, pending or completed,
two toggles both answer 200 and the todo that is then returned, which is the
one stored, has `isCompleted` at its original value and no `completedAt`
(`null`): it is the original todo with `updatedAt` rewritten. -/
theorem toggle_twice (castId : String → Option ObjectId) (db : Collection) (user : ObjectId)
    (idParam : String) (id : ObjectId) (now1 now2 : Timestamp) (t : Todo)
    (hid : castId idParam = some id) (hf : findOne db id user = some t) :
    (toggleTodo castId db user idParam now1).1.status = 200
      ∧ (toggleTodo castId (toggleTodo castId db user idParam now1).2
            user idParam now2).1.status = 200
      ∧ ∃ t2, (toggleTodo castId (toggleTodo castId db user idParam now1).2
            user idParam now2).1.todo = some t2
          ∧ findOne (toggleTodo castId (toggleTodo castId db user idParam now1).2
              user idParam now2).2 id user = some t2
          ∧ t2.isCompleted = t.isCompleted
          ∧ datePath t2 "completedAt" = none
          ∧ t2 = { t with updatedAt := now2 } := by
  obtain ⟨_, hti, htu⟩ := findOne_some db id user t hf
  have h1 := toggleTodo_found castId db user idParam id now1 t hid hf
  have hf1 := findOne_save db id user t
    { t with isCompleted := !t.isCompleted, updatedAt := now1 } hf hti htu
  rw [h1]
  have h2 := toggleTodo_found castId _ user idParam id now2 _ hid hf1
  rw [h2]
  have hf2 := findOne_save _ id user _
    { t with isCompleted := !(!t.isCompleted), updatedAt := now2 } hf1 hti htu
  have e : ({ t with isCompleted := !(!t.isCompleted), updatedAt := now2 } : Todo)
      = { t with updatedAt := now2 } := by
    cases hc : t.isCompleted <;> simp [hc]
  refine ⟨rfl, rfl, { t with updatedAt := now2 }, ?_, ?_, rfl, rfl, rfl⟩
  · simp only
    rw [← e]
  · simp only at hf2 ⊢
    rw [hf2, e]

/-- The double toggle of the completed example todo. -/
theorem toggle_twice_witness :
    castObjectId completedTodo._id = some completedTodo._id
      ∧ findOne [completedTodo, pendingTodo] completedTodo._id "u" = some completedTodo
      ∧ ∃ t2, (toggleTodo castObjectId
            (toggleTodo castObjectId [completedTodo, pendingTodo] "u" completedTodo._id 10).2
            "u" completedTodo._id 20).1.todo = some t2
          ∧ findOne (toggleTodo castObjectId
              (toggleTodo castObjectId [completedTodo, pendingTodo] "u" completedTodo._id 10).2
              "u" completedTodo._id 20).2 completedTodo._id "u" = some t2
          ∧ t2.isCompleted = completedTodo.isCompleted
          ∧ datePath t2 "completedAt" = none
          ∧ t2 = { completedTodo with updatedAt := 20 } :=
  ⟨by decide, by decide,
   (toggle_twice castObjectId [completedTodo, pendingTodo] "u" completedTodo._id
      completedTodo._id 10 20 completedTodo (by decide) (by decide)).2.2⟩

/-- C8. Deleting by the id of an existing todo that another user owns
answers 404, not 200, and leaves the collection as it was, the todo still
in it. -/
theorem deleteTodo_not_owner (castId : String → Option ObjectId) (db : Collection)
    (caller : ObjectId) (idParam : String) (t : Todo)
    (hu : (db.map Todo._id).Nodup) (ht : t ∈ db) (hid : castId idParam = some t._id)
    (hne : t.user ≠ caller) :
    (deleteTodo castId db caller idParam).1.status = 404
      ∧ (deleteTodo castId db caller idParam).1.status ≠ 200
      ∧ (deleteTodo castId db caller idParam).2 = db
      ∧ t ∈ (deleteTodo castId db caller idParam).2 := by
  have hnone : findOne db t._id caller = none := by
    unfold findOne
    rw [List.find?_eq_none]
    intro x hx hm
    simp only [Bool.and_eq_true, beq_iff_eq] at hm
    have : x = t := List.inj_on_of_nodup_map hu hx ht hm.1
    rw [this] at hm
    exact hne hm.2
  unfold deleteTodo
  rw [hid]
  simp only [hnone]
  exact ⟨trivial, by decide, trivial, ht⟩

/-- User `v` deletes by the id of a todo of user `u`. -/
theorem deleteTodo_not_owner_witness :
    ([completedTodo, pendingTodo].map Todo._id).Nodup
      ∧ pendingTodo ∈ [completedTodo, pendingTodo]
      ∧ castObjectId pendingTodo._id = some pendingTodo._id
      ∧ pendingTodo.user ≠ "v"
      ∧ (deleteTodo castObjectId [completedTodo, pendingTodo] "v" pendingTodo._id).1.status = 404
      ∧ (deleteTodo castObjectId [completedTodo, pendingTodo] "v" pendingTodo._id).2
          = [completedTodo, pendingTodo] :=
  ⟨by decide, by decide, by decide, by decide,
   (deleteTodo_not_owner castObjectId [completedTodo, pendingTodo] "v" pendingTodo._id
      pendingTodo (by decide) (by decide) (by decide) (by decide)).1,
   (deleteTodo_not_owner castObjectId [completedTodo, pendingTodo] "v" pendingTodo._id
      pendingTodo (by decide) (by decide) (by decide) (by decide)).2.2.1⟩

/-- C9, the code at the failing input. A `DELETE` of `/clear-completed` is
taken by the route `/:id`, registered first, with `id = 'clear-completed'`:
the answer is that of the delete-one handler, never the message of a
cleared count, and with the cast of Mongoose it is 500 although the caller
has no completed todo; the handler of `/clear-completed` itself would have
answered 200 with a count of 0. -/
theorem clearCompleted_shadowed (castId : String → Option ObjectId) (db : Collection)
    (user : ObjectId) :
    route .DELETE ["clear-completed"] = some (.deleteOne, [("id", "clear-completed")])
      ∧ dispatchDelete castId db user ["clear-completed"]
          = some (deleteTodo castId db user "clear-completed")
      ∧ (deleteTodo castId db user "clear-completed").1.message ≠ "Cleared 0 completed todos"
      ∧ dispatchDelete castObjectId [pendingTodo] "u" ["clear-completed"]
          = some ({ status := 500, success := false,
                    message := "Server error while deleting todo" }, [pendingTodo])
      ∧ clearCompleted [pendingTodo] "u"
          = ({ status := 200, success := true, message := "Cleared 0 completed todos" },
             [pendingTodo]) := by
  refine ⟨by decide, rfl, ?_, by decide, by decide⟩
  unfold deleteTodo
  split
  · show "Server error while deleting todo" ≠ "Cleared 0 completed todos"
    decide
  · split
    · show "Todo not found" ≠ "Cleared 0 completed todos"
      decide
    · show "Todo deleted successfully" ≠ "Cleared 0 completed todos"
      decide

/-! ## Properties of the create handler -/

theorem utf16Length_trim_le (s : String) : utf16Length (trim s) ≤ utf16Length s := by
  have h : (trim s).data.Sublist s.data :=
    (( List.rdropWhile_prefix isSpace (s.data.dropWhile isSpace)).sublist).trans
      (List.dropWhile_sublist isSpace)
  exact (h.map _).sum_le_sum fun a _ => Nat.zero_le a

theorem trim_trim (s : String) : trim (trim s) = trim s := by
  show (⟨((((s.data.dropWhile isSpace).rdropWhile isSpace).dropWhile isSpace).rdropWhile
      isSpace)⟩ : String) = ⟨(s.data.dropWhile isSpace).rdropWhile isSpace⟩
  congr 1
  have h1 : ((s.data.dropWhile isSpace).rdropWhile isSpace).dropWhile isSpace
      = (s.data.dropWhile isSpace).rdropWhile isSpace := by
    rw [List.dropWhile_eq_self_iff]
    intro hl
    have hp := List.rdropWhile_prefix isSpace (s.data.dropWhile isSpace)
    have hl' : 0 < (s.data.dropWhile isSpace).length := lt_of_lt_of_le hl hp.length_le
    have e : ((s.data.dropWhile isSpace).rdropWhile isSpace).get ⟨0, hl⟩
        = (s.data.dropWhile isSpace).get ⟨0, hl'⟩ := by
      simp only [List.get_eq_getElem]
      exact hp.getElem hl
    rw [e]
    exact List.dropWhile_get_zero_not isSpace s.data hl'
  rw [h1, List.rdropWhile_idempotent]

theorem tags_path_ne_title (x : String) : "tags[" ++ x ≠ "title" := by
  intro h
  have := congrArg String.data h
  simp at this

theorem checkOptionalText_path (path msg : String) (max : Nat) (v : Option String)
    (e : ValidationError) (he : e ∈ (checkOptionalText path msg max v).1) : e.path = path := by
  unfold checkOptionalText at he
  cases v with
  | none => simp at he
  | some d =>
    simp only at he
    split_ifs at he
    · simp at he
    · simp only [List.mem_singleton] at he
      rw [he]

theorem checkPriority_path (v : Option Int) (e : ValidationError)
    (he : e ∈ checkPriority v) : e.path = "priority" := by
  unfold checkPriority at he
  cases v with
  | none => simp at he
  | some p =>
    simp only at he
    split_ifs at he
    · simp at he
    · simp only [List.mem_singleton] at he
      rw [he]

theorem checkPriority_nil (p : Int) (h : checkPriority (some p) = []) : 1 ≤ p ∧ p ≤ 3 := by
  unfold checkPriority at h
  simp only at h
  split_ifs at h with hl
  simpa [isInt] using hl

theorem checkDueDate_path (parseDate : String → Option Timestamp) (v : Option DueDateInput)
    (e : ValidationError) (he : e ∈ checkDueDate parseDate v) : e.path = "dueDate" := by
  unfold checkDueDate at he
  split at he
  · simp at he
  · simp at he
  · split_ifs at he
    · simp at he
    · simp at he
    · simp only [List.mem_singleton] at he
      rw [he]

theorem checkDueDate_nil (parseDate : String → Option Timestamp) (s : String)
    (h : checkDueDate parseDate (some (.str s)) = []) (hs : s ≠ "") :
    (parseDate s).isSome = true := by
  unfold checkDueDate at h
  simp only [hs, if_false] at h
  split_ifs at h with hp
  exact hp

theorem checkTags_path (v : Option (List String)) (e : ValidationError)
    (he : e ∈ checkTags v) : e.path = "tags" := by
  unfold checkTags at he
  cases v with
  | none => simp at he
  | some ts =>
    simp only at he
    split_ifs at he
    · simp at he
    · simp only [List.mem_singleton] at he
      rw [he]

theorem tagEntryErrors_path (ts : List String) (i : Nat) (e : ValidationError)
    (he : e ∈ tagEntryErrors i ts) : e.path ≠ "title" := by
  induction ts generalizing i with
  | nil => simp [tagEntryErrors] at he
  | cons t ts ih =>
    simp only [tagEntryErrors, List.mem_append] at he
    rcases he with he | he
    · split_ifs at he
      · simp at he
      · simp only [List.mem_singleton] at he
        rw [he]
        exact tags_path_ne_title _
    · exact ih (i + 1) he

theorem validatorLength_pos_ne_empty (s : String) (h : 1 ≤ validatorLength s) : s ≠ "" := by
  intro e
  rw [e] at h
  exact absurd h (by decide)

theorem schemaValid_applySetters_iff (t : Todo) :
    schemaValid (applySetters t) = true
      ↔ trim t.title ≠ "" ∧ utf16Length (trim t.title) ≤ 200
        ∧ utf16Length (trim t.description) ≤ 1000
        ∧ (t.priority = 1 ∨ t.priority = 2 ∨ t.priority = 3)
        ∧ (∀ tag ∈ t.tags, utf16Length (trim tag) ≤ 20)
        ∧ utf16Length (trim t.category) ≤ 50 := by
  simp only [schemaValid, applySetters, Bool.and_eq_true, bne_iff_ne, ne_eq,
    decide_eq_true_eq, Bool.or_eq_true, beq_iff_eq, List.all_eq_true, List.mem_map,
    forall_exists_index, and_imp, forall_apply_eq_imp_iff₂]
  tauto

theorem validateCreate_fst (parseDate : String → Option Timestamp) (body : TodoBody) :
    (validateCreate parseDate body).1
      = (if isLength (trim (body.title.getD "")) 1 200 then []
          else [{ path := "title", msg := "Title must be between 1 and 200 characters" }])
        ++ (checkOptionalText "description" "Description cannot exceed 1000 characters" 1000
              body.description).1
        ++ checkPriority body.priority ++ checkDueDate parseDate body.dueDate
        ++ (checkOptionalText "category" "Category cannot exceed 50 characters" 50
              body.category).1
        ++ checkTags body.tags ++ (checkTagEntries body.tags).1 := rfl

theorem validateCreate_snd (parseDate : String → Option Timestamp) (body : TodoBody) :
    (validateCreate parseDate body).2
      = { title := some (trim (body.title.getD "")), description := body.description.map trim,
          priority := body.priority, dueDate := body.dueDate,
          category := body.category.map trim,
          tags := body.tags.map fun ts => ts.map trim } := by
  obtain ⟨t, d, p, due, c, tags⟩ := body
  cases d <;> cases c <;> cases tags <;> rfl

theorem eq_nil_of_paths (l : List ValidationError)
    (h1 : ∀ e ∈ l, e.path = "title") (h2 : ∀ e ∈ l, e.path ≠ "title") : l = [] :=
  List.eq_nil_iff_forall_not_mem.mpr fun e he => h2 e he (h1 e he)

/-- C7, amended. Take a create request whose other fields raise no validation
error and fit the `maxlength` of the schema. The title is measured after the
white space at its ends is removed. It is rejected with 400 when its length
as `isLength` counts it (characters, variation selectors not counted) is `0`
or more than `200`; a title equal to the empty string is among these.
Otherwise it is accepted with 201 when its JavaScript length is at most
`200`, and `save()` fails with 500 when it is more. -/
theorem createTodo_title (parseDate : String → Option Timestamp) (db : Collection)
    (user : ObjectId) (body : TodoBody) (newId : ObjectId) (now : Timestamp)
    (hother : ∀ e ∈ (validateCreate parseDate body).1, e.path = "title")
    (hfit : (∀ d, body.description = some d → utf16Length (trim d) ≤ 1000)
      ∧ (∀ c, body.category = some c → utf16Length (trim c) ≤ 50)
      ∧ (∀ ts, body.tags = some ts → ∀ tag ∈ ts, utf16Length (trim tag) ≤ 20)) :
    (createTodo parseDate db user body newId now).1.status
        = (if 1 ≤ validatorLength (trim (body.title.getD ""))
              ∧ validatorLength (trim (body.title.getD "")) ≤ 200
           then (if utf16Length (trim (body.title.getD "")) ≤ 200 then 201 else 500)
           else 400)
      ∧ (body.title = some "" → (createTodo parseDate db user body newId now).1.status = 400) := by
  have main : (createTodo parseDate db user body newId now).1.status
      = (if 1 ≤ validatorLength (trim (body.title.getD ""))
            ∧ validatorLength (trim (body.title.getD "")) ≤ 200
         then (if utf16Length (trim (body.title.getD "")) ≤ 200 then 201 else 500)
         else 400) := by
    have hfst := validateCreate_fst parseDate body
    have hsnd := validateCreate_snd parseDate body
    by_cases hl : isLength (trim (body.title.getD "")) 1 200 = true
    · have hl' : 1 ≤ validatorLength (trim (body.title.getD ""))
          ∧ validatorLength (trim (body.title.getD "")) ≤ 200 := by
        simpa [isLength] using hl
      rw [if_pos hl']
      rw [if_pos hl, List.nil_append] at hfst
      rw [hfst] at hother
      simp only [List.mem_append] at hother
      have e1 := eq_nil_of_paths (checkOptionalText "description"
          "Description cannot exceed 1000 characters" 1000 body.description).1
        (fun e he => hother e (Or.inl (Or.inl (Or.inl (Or.inl (Or.inl he))))))
        (fun e he => by rw [checkOptionalText_path _ _ _ _ e he]; decide)
      have e2 := eq_nil_of_paths (checkPriority body.priority)
        (fun e he => hother e (Or.inl (Or.inl (Or.inl (Or.inl (Or.inr he))))))
        (fun e he => by rw [checkPriority_path _ e he]; decide)
      have e3 := eq_nil_of_paths (checkDueDate parseDate body.dueDate)
        (fun e he => hother e (Or.inl (Or.inl (Or.inl (Or.inr he)))))
        (fun e he => by rw [checkDueDate_path _ _ e he]; decide)
      have e4 := eq_nil_of_paths (checkOptionalText "category"
          "Category cannot exceed 50 characters" 50 body.category).1
        (fun e he => hother e (Or.inl (Or.inl (Or.inr he))))
        (fun e he => by rw [checkOptionalText_path _ _ _ _ e he]; decide)
      have e5 := eq_nil_of_paths (checkTags body.tags)
        (fun e he => hother e (Or.inl (Or.inr he)))
        (fun e he => by rw [checkTags_path _ e he]; decide)
      have e6 := eq_nil_of_paths (checkTagEntries body.tags).1
        (fun e he => hother e (Or.inr he))
        (fun e he => by
          unfold checkTagEntries at he
          cases hts : body.tags with
          | none => rw [hts] at he; simp at he
          | some ts => rw [hts] at he; exact tagEntryErrors_path _ 0 e he)
      rw [e1, e2, e3, e4, e5, e6] at hfst
      simp only [List.append_nil] at hfst
      have hv : validateCreate parseDate body = ([], _) := Prod.ext hfst hsnd
      unfold createTodo
      rw [hv]
      simp only [List.isEmpty_nil, Bool.not_true, Bool.false_eq_true, if_false]
      -- the cast of the due date succeeds
      obtain ⟨due, hdue⟩ : ∃ due, castDueDate parseDate
          (match body.dueDate with
            | some (.str s) => if truthyStr s then .str s else .null
            | _ => .null) = some due := by
        cases hd : body.dueDate with
        | none => exact ⟨none, rfl⟩
        | some v =>
          cases v with
          | null => exact ⟨none, rfl⟩
          | str s =>
            by_cases hs : s = ""
            · subst hs; exact ⟨none, rfl⟩
            · rw [hd] at e3
              have hp := checkDueDate_nil parseDate s e3 hs
              obtain ⟨ts, hts⟩ := Option.isSome_iff_exists.mp hp
              refine ⟨some ts, ?_⟩
              simp [truthyStr, hs, castDueDate, hts]
      rw [hdue]
      simp only [Option.getD_some]
      -- the other fields fit the schema
      have hdesc : utf16Length (trim (match body.description.map trim with
            | some d => if truthyStr d = true then d else ""
            | none => "")) ≤ 1000 := by
        refine le_trans (utf16Length_trim_le _) ?_
        cases hd : body.description with
        | none => simp [utf16Length]
        | some d =>
          simp only [Option.map_some']
          split_ifs
          · exact hfit.1 d hd
          · simp [utf16Length]
      have hprio : ((match body.priority with
            | some p => if truthyNum p = true then p else 1
            | none => 1 : Int)) = 1 ∨ ((match body.priority with
            | some p => if truthyNum p = true then p else 1
            | none => 1 : Int)) = 2 ∨ ((match body.priority with
            | some p => if truthyNum p = true then p else 1
            | none => 1 : Int)) = 3 := by
        cases hp : body.priority with
        | none => simp
        | some p =>
          rw [hp] at e2
          have := checkPriority_nil p e2
          simp only
          split_ifs
          · omega
          · simp
      have htags : ∀ tag ∈ (body.tags.map fun ts => ts.map trim).getD [],
          utf16Length (trim tag) ≤ 20 := by
        cases hts : body.tags with
        | none => simp
        | some ts =>
          intro tag htag
          simp only [Option.map_some', Option.getD_some, List.mem_map] at htag
          obtain ⟨t0, ht0, rfl⟩ := htag
          rw [trim_trim]
          exact hfit.2.2 ts hts t0 ht0
      have hcat : utf16Length (trim (match body.category.map trim with
            | some c => if truthyStr c = true then c else "General"
            | none => "General")) ≤ 50 := by
        refine le_trans (utf16Length_trim_le _) ?_
        cases hc : body.category with
        | none => decide
        | some c =>
          simp only [Option.map_some']
          split_ifs
          · exact hfit.2.1 c hc
          · decide
      have hne : trim (trim (body.title.getD "")) ≠ "" := by
        rw [trim_trim]
        exact validatorLength_pos_ne_empty _ hl'.1
      by_cases hu : utf16Length (trim (body.title.getD "")) ≤ 200
      · have hu' : utf16Length (trim (trim (body.title.getD ""))) ≤ 200 := by
          rw [trim_trim]
          exact hu
        rw [if_pos hu]
        split_ifs with hs
        · rfl
        · exact (hs ((schemaValid_applySetters_iff _).mpr
            ⟨hne, hu', hdesc, hprio, htags, hcat⟩)).elim
      · have hu' : ¬ utf16Length (trim (trim (body.title.getD ""))) ≤ 200 := by
          rw [trim_trim]
          exact hu
        rw [if_neg hu]
        split_ifs with hs
        · exact (hu' ((schemaValid_applySetters_iff _).mp hs).2.1).elim
        · rfl
    · have hl' : ¬ (1 ≤ validatorLength (trim (body.title.getD ""))
          ∧ validatorLength (trim (body.title.getD "")) ≤ 200) := by
        simpa [isLength] using hl
      rw [if_neg hl']
      rw [if_neg hl] at hfst
      unfold createTodo
      generalize validateCreate parseDate body = r at hfst ⊢
      obtain ⟨errors, b⟩ := r
      simp only at hfst
      rw [hfst]
      rfl
  refine ⟨main, fun h => ?_⟩
  rw [main, h]
  decide

set_option maxRecDepth 100000 in
/-- C7 as stated fails on both bounds: the title of 200 spaces is rejected
with 400, and the title of 201 characters that ends in a space is accepted
with 201. -/
theorem createTodo_title_length_counterexample :
    (¬ ∀ (parseDate : String → Option Timestamp) (db : Collection) (user : ObjectId)
        (title : String) (newId : ObjectId) (now : Timestamp),
        title.length = 200 →
          (createTodo parseDate db user { title := some title } newId now).1.status = 201)
      ∧ (¬ ∀ (parseDate : String → Option Timestamp) (db : Collection) (user : ObjectId)
        (title : String) (newId : ObjectId) (now : Timestamp),
        title.length = 201 →
          (createTodo parseDate db user { title := some title } newId now).1.status = 400) := by
  constructor
  · intro h
    have h1 := h (fun _ => none) [] "u" blankTitle "65f000000000000000000003" 0 (by decide)
    have h2 : (createTodo (fun _ => none) [] "u" { title := some blankTitle }
        "65f000000000000000000003" 0).1.status = 400 := by decide
    rw [h2] at h1
    exact absurd h1 (by decide)
  · intro h
    have h1 := h (fun _ => none) [] "u" paddedTitle "65f000000000000000000003" 0 (by decide)
    have h2 : (createTodo (fun _ => none) [] "u" { title := some paddedTitle }
        "65f000000000000000000003" 0).1.status = 201 := by decide
    rw [h2] at h1
    exact absurd h1 (by decide)

/-- The create request of the title `Buy milk` with priority 2. -/
theorem createTodo_title_witness :
    (∀ e ∈ (validateCreate (fun _ => none)
        { title := some "Buy milk", priority := some 2 }).1, e.path = "title")
      ∧ (createTodo (fun _ => none) [] "u" { title := some "Buy milk", priority := some 2 }
            "65f000000000000000000003" 0).1.status
          = (if 1 ≤ validatorLength (trim ((some "Buy milk" : Option String).getD ""))
                ∧ validatorLength (trim ((some "Buy milk" : Option String).getD "")) ≤ 200
             then (if utf16Length (trim ((some "Buy milk" : Option String).getD "")) ≤ 200
               then 201 else 500)
             else 400) :=
  ⟨by decide,
   (createTodo_title (fun _ => none) [] "u" { title := some "Buy milk", priority := some 2 }
     "65f000000000000000000003" 0 (by decide)
     ⟨fun _ h => (nomatch h), fun _ h => (nomatch h), fun _ h => (nomatch h)⟩).1⟩

/-! ## Properties of the update handler -/

/-- C10, the code at the failing input. For the tags `['']` and for one tag
of 21 characters the create validation reports the entry and the create
handler answers 400, while the update validation reports nothing: the update
handler stores the empty tag and answers 200, and for the long tag answers
500 when `save()` throws on the schema's `maxlength`. -/
theorem update_skips_tag_entries (parseDate : String → Option Timestamp) (now : Timestamp) :
    (validateCreate parseDate { title := some "t", tags := some [""] }).1
        = [{ path := "tags[0]", msg := "Each tag must be between 1 and 20 characters" }]
      ∧ (createTodo parseDate [pendingTodo] "u" { title := some "t", tags := some [""] }
            "65f000000000000000000003" now).1.status = 400
      ∧ (validateUpdate parseDate { tags := some [""] }).1 = []
      ∧ updateTodo castObjectId parseDate [pendingTodo] "u" pendingTodo._id
            { tags := some [""] } now
          = ({ status := 200, success := true, message := "Todo updated successfully",
               todo := some { pendingTodo with tags := [""], updatedAt := now } },
             [{ pendingTodo with tags := [""], updatedAt := now }])
      ∧ (createTodo parseDate [pendingTodo] "u"
            { title := some "t", tags := some ["aaaaaaaaaaaaaaaaaaaaa"] }
            "65f000000000000000000003" now).1.status = 400
      ∧ (validateUpdate parseDate { tags := some ["aaaaaaaaaaaaaaaaaaaaa"] }).1 = []
      ∧ (updateTodo castObjectId parseDate [pendingTodo] "u" pendingTodo._id
            { tags := some ["aaaaaaaaaaaaaaaaaaaaa"] } now).1.status = 500 := by
  refine ⟨?_, ?_, ?_, ?_, ?_, ?_, ?_⟩ <;> rfl

end TodoApp
